import Mathlib

set_option maxRecDepth 100000

/-
Verification development for the rtfd_guns_for_hands repository.

The byte-level scanner of rtfd_guns_for_hands/guns_parser.py is embedded
shallowly: a Python `bytes` object becomes a `List Nat` (each element a
byte value), the mutable parser object `RtfdGunsForHands` becomes an
explicit state record, and every fallible parsing routine returns an
`Option`.  Offsets are plain `Nat`s; every slice taken by the Python code
is guarded by an explicit bounds check before the read, exactly as in the
source, so slices in the model are always exact.
-/

/-- `struct.unpack_from "<I"`: little-endian 32-bit read of a 4-byte slice. -/
def le32 (bs : List Nat) : Nat :=
  match bs with
  | [b0, b1, b2, b3] => b0 + 256 * b1 + 65536 * b2 + 16777216 * b3
  | _ => 0

/-- Little-endian 4-byte encoding of a 32-bit value (used to build test
inputs for the round-trip theorems). -/
def le32bytes (n : Nat) : List Nat :=
  [n % 256, n / 256 % 256, n / 65536 % 256, n / 16777216 % 256]

/-- Python slice `data[off : off + n]` (always used after a bounds check). -/
def getSlice (data : List Nat) (off n : Nat) : List Nat :=
  (data.drop off).take n

/-- The byte literal `b"rtfd"`. -/
def rtfdMagic : List Nat := [114, 116, 102, 100]

/-- `COMBINED_MARKER` from guns_parser.py: a 19-byte length prefix plus
`__@PreferredName@__` followed by a 23-byte length prefix plus
`__@UTF8PreferredName@__` (50 bytes total). -/
def COMBINED_MARKER : List Nat :=
  [19, 0, 0, 0,
   95, 95, 64, 80, 114, 101, 102, 101, 114, 114, 101, 100, 78, 97, 109, 101, 64, 95, 95,
   23, 0, 0, 0,
   95, 95, 64, 85, 84, 70, 56, 80, 114, 101, 102, 101, 114, 114, 101, 100, 78, 97, 109, 101, 64, 95, 95]

/-- One parsed block, mirroring the dict built at the end of
`parse_file_block`.  The Python code stores `repeated_name` and
`repeated_utf8` after `bytes.decode("utf-8", errors="replace")`; that
decoding never fails and maps the empty byte string to the empty text and
any non-empty byte string to non-empty text, so the model keeps the raw
bytes (the only property any caller relies on is emptiness, plus identity
of the raw content). -/
structure Block where
  file_len : Nat
  pad_len : Nat
  file_data : List Nat
  repeated_name : List Nat
  repeated_utf8 : List Nat
deriving DecidableEq, Repr

/-- `RtfdGunsForHands._parse_repeated_string`: marker `01 00 00 00`, then a
32-bit length, then that many bytes.  Failure (`(None, offset)` in Python)
becomes `none`. -/
def parse_repeated_string (data : List Nat) (off : Nat) : Option (List Nat × Nat) :=
  if data.length < off + 4 then none
  else if getSlice data off 4 ≠ [1, 0, 0, 0] then none
  else if data.length < off + 8 then none
  else if data.length < off + 8 + le32 (getSlice data (off + 4) 4) then none
  else some (getSlice data (off + 8) (le32 (getSlice data (off + 4) 4)),
             off + 8 + le32 (getSlice data (off + 4) 4))

/-- Tail of `RtfdGunsForHands.parse_file_block` after `file_len` and
`pad_len` are known (`off` points just past the length field(s)): skip
`pad_len` bytes, read `file_len` bytes of file data, then the two repeated
strings, and assemble the block dict. -/
def finishBlock (data : List Nat) (off file_len pad_len : Nat) : Option (Block × Nat) :=
  if data.length < off + pad_len then none
  else if data.length < off + pad_len + file_len then none
  else
    (parse_repeated_string data (off + pad_len + file_len)).bind fun p1 =>
    (parse_repeated_string data p1.2).bind fun p2 =>
    some ({ file_len := file_len, pad_len := pad_len,
            file_data := getSlice data (off + pad_len) file_len,
            repeated_name := p1.1, repeated_utf8 := p2.1 }, p2.2)

/-- `RtfdGunsForHands.parse_file_block`: combined marker, 21 unknown bytes,
marker `01 00 00 00`, then either the sentinel `00 00 00 80` followed by
`(file_len, pad_len)` or a direct `file_len`; offsets written out as the
running sums the Python code reaches by incrementing `offset`. -/
def parse_file_block (data : List Nat) (s : Nat) : Option (Block × Nat) :=
  if data.length < s + COMBINED_MARKER.length then none
  else if getSlice data s COMBINED_MARKER.length ≠ COMBINED_MARKER then none
  else if data.length < s + COMBINED_MARKER.length + 21 then none
  else if data.length < s + COMBINED_MARKER.length + 25 then none
  else if getSlice data (s + COMBINED_MARKER.length + 21) 4 ≠ [1, 0, 0, 0] then none
  else if data.length < s + COMBINED_MARKER.length + 29 then none
  else if getSlice data (s + COMBINED_MARKER.length + 25) 4 = [0, 0, 0, 128] then
    if data.length < s + COMBINED_MARKER.length + 37 then none
    else finishBlock data (s + COMBINED_MARKER.length + 37)
           (le32 (getSlice data (s + COMBINED_MARKER.length + 29) 4))
           (le32 (getSlice data (s + COMBINED_MARKER.length + 33) 4))
  else finishBlock data (s + COMBINED_MARKER.length + 29)
         (le32 (getSlice data (s + COMBINED_MARKER.length + 25) 4)) 0

/-- `bytes.find(sub, start)`, fuel-driven scan: smallest `i ≥ start` such
that `sub` occurs at `i` (entirely inside `data`), else `none`. -/
def findFromAux (data sub : List Nat) : Nat → Nat → Option Nat
  | 0, _ => none
  | fuel + 1, i =>
    if data.length < i + sub.length then none
    else if getSlice data i sub.length = sub then some i
    else findFromAux data sub fuel (i + 1)

/-- `self.data.find(COMBINED_MARKER, self.offset)` (for a non-empty
needle the fuel `data.length + 1 - start` always suffices). -/
def findFrom (data sub : List Nat) (start : Nat) : Option Nat :=
  findFromAux data sub (data.length + 1 - start) start

/-- The scan loop of `parse_all_file_blocks`: find the next combined
marker, parse a block there, append it, move the cursor to the block's end;
stop when no marker is found or a block parse fails.  Fuel bounds the
number of iterations; `parse_loop_fuel_eq` below shows any fuel exceeding
`data.length - offset` computes the loop's true result. -/
def parseLoop (data : List Nat) : Nat → Nat → List Block → List Block × Nat
  | 0, offset, acc => (acc, offset)
  | fuel + 1, offset, acc =>
    match findFrom data COMBINED_MARKER offset with
    | none => (acc, offset)
    | some pos =>
      match parse_file_block data pos with
      | none => (acc, offset)
      | some (block, new_off) => parseLoop data fuel new_off (acc ++ [block])

/-- The parser object: `self.data` and the mutable `self.offset`
(`self.length` is always `len(self.data)` and is kept implicit). -/
structure RtfdGunsForHands where
  data : List Nat
  offset : Nat
deriving DecidableEq, Repr

/-- `RtfdGunsForHands.__init__`: fresh handle with offset 0. -/
def newHandle (data : List Nat) : RtfdGunsForHands :=
  { data := data, offset := 0 }

/-- `skip_rtfd_magic`: advance the offset 4 bytes when the buffer starts
with `b"rtfd"`. -/
def skip_rtfd_magic (h : RtfdGunsForHands) : RtfdGunsForHands :=
  if h.data.take 4 = rtfdMagic then { data := h.data, offset := h.offset + 4 } else h

/-- `parse_all_file_blocks`: bail out with an empty list when a fresh
handle's data does not start with `b"rtfd"`; otherwise skip the magic and
run the scan loop.  Returns the block list together with the final handle
state. -/
def parse_all_file_blocks (h : RtfdGunsForHands) : List Block × RtfdGunsForHands :=
  if h.offset = 0 ∧ ¬ h.data.take 4 = rtfdMagic then ([], h)
  else
    let h1 := skip_rtfd_magic h
    let r := parseLoop h1.data (h1.data.length + 1) h1.offset []
    (r.1, { data := h1.data, offset := r.2 })

/-- Encoding of one repeated-string field: marker, length, body. -/
def encRep (s : List Nat) : List Nat :=
  [1, 0, 0, 0] ++ (le32bytes s.length ++ s)

/-- Encoding of one whole block in the sentinel form: combined marker,
21 unknown bytes, the `01 00 00 00` marker, the sentinel `00 00 00 80`,
true length `T`, padding length `P`, `P` pad bytes, `T` data bytes, and the
two repeated strings. -/
def encSentinel (unk : List Nat) (T P : Nat) (padb dat n1 n2 : List Nat) : List Nat :=
  COMBINED_MARKER ++ (unk ++ ([1, 0, 0, 0] ++ ([0, 0, 0, 128] ++
    (le32bytes T ++ (le32bytes P ++ (padb ++ (dat ++ (encRep n1 ++ encRep n2))))))))

/-- Encoding of one whole block in the direct-length form: combined
marker, 21 unknown bytes, the `01 00 00 00` marker, a direct length `L`,
`L` data bytes, and the two repeated strings. -/
def encDirect (unk : List Nat) (L : Nat) (dat n1 n2 : List Nat) : List Nat :=
  COMBINED_MARKER ++ (unk ++ ([1, 0, 0, 0] ++
    (le32bytes L ++ (dat ++ (encRep n1 ++ encRep n2)))))

lemma le32bytes_length (n : Nat) : (le32bytes n).length = 4 := rfl

lemma le32_le32bytes (n : Nat) (h : n < 4294967296) : le32 (le32bytes n) = n := by
  simp only [le32bytes, le32]
  omega

lemma length_getSlice (data : List Nat) (off n : Nat) (h : off + n ≤ data.length) :
    (getSlice data off n).length = n := by
  simp only [getSlice, List.length_take, List.length_drop]
  omega

lemma getSlice_drop (data : List Nat) (off n : Nat) (b r : List Nat)
    (hd : data.drop off = b ++ r) (hb : b.length = n) : getSlice data off n = b := by
  rw [getSlice, hd, List.take_left' hb]

/-- Success of `parse_repeated_string` on an encoded repeated string that
sits at offset `off` (preceded by `off` arbitrary bytes, followed by
anything). -/
lemma parse_rep_encRep (pre s rest : List Nat) (off : Nat)
    (hoff : pre.length = off) (hs : s.length < 4294967296) :
    parse_repeated_string (pre ++ (encRep s ++ rest)) off =
      some (s, off + 8 + s.length) := by
  subst hoff
  have hd0 : (pre ++ (encRep s ++ rest)).drop pre.length =
      [1, 0, 0, 0] ++ (le32bytes s.length ++ (s ++ rest)) := by
    rw [List.drop_left]
    simp [encRep, List.append_assoc]
  have hd4 : (pre ++ (encRep s ++ rest)).drop (pre.length + 4) =
      le32bytes s.length ++ (s ++ rest) := by
    rw [← List.drop_drop, hd0, List.drop_left' (by rfl : ([1,0,0,0] : List Nat).length = 4)]
  have hd8 : (pre ++ (encRep s ++ rest)).drop (pre.length + 8) = s ++ rest := by
    rw [show pre.length + 8 = pre.length + 4 + 4 by omega, ← List.drop_drop, hd4,
        List.drop_left' (le32bytes_length s.length)]
  have hlen : (pre ++ (encRep s ++ rest)).length =
      pre.length + 8 + s.length + rest.length := by
    simp [encRep, le32bytes]
    omega
  have s1 : getSlice (pre ++ (encRep s ++ rest)) pre.length 4 = [1, 0, 0, 0] :=
    getSlice_drop _ _ _ _ _ hd0 rfl
  have s2 : getSlice (pre ++ (encRep s ++ rest)) (pre.length + 4) 4 = le32bytes s.length :=
    getSlice_drop _ _ _ _ _ hd4 (le32bytes_length _)
  have s3 : getSlice (pre ++ (encRep s ++ rest)) (pre.length + 8) s.length = s :=
    getSlice_drop _ _ _ _ _ hd8 rfl
  rw [parse_repeated_string, s1, s2, le32_le32bytes _ hs, s3]
  rw [if_neg (by omega), if_neg (by simp), if_neg (by omega), if_neg (by omega)]

lemma le32_sentinel : le32 [0, 0, 0, 128] = 2147483648 := rfl

lemma le32bytes_ne_sentinel (L : Nat) (h : L < 4294967296) (hne : L ≠ 2147483648) :
    le32bytes L ≠ [0, 0, 0, 128] := by
  intro he
  exact hne (by rw [← le32_le32bytes L h, he, le32_sentinel])

/-- `parse_file_block` succeeds on a sentinel-form block encoding, returns
the `T` data bytes (the pad skipped, never read), and consumes the whole
encoding. -/
lemma parse_encSentinel (unk padb dat n1 n2 : List Nat) (T P : Nat)
    (hu : unk.length = 21) (hp : padb.length = P) (hd : dat.length = T)
    (hT : T < 4294967296) (hP : P < 4294967296)
    (h1 : n1.length < 4294967296) (h2 : n2.length < 4294967296) :
    parse_file_block (encSentinel unk T P padb dat n1 n2) 0 =
      some ({ file_len := T, pad_len := P, file_data := dat,
              repeated_name := n1, repeated_utf8 := n2 },
            (encSentinel unk T P padb dat n1 n2).length) := by
  set e := encSentinel unk T P padb dat n1 n2 with he
  have hCM : COMBINED_MARKER.length = 50 := rfl
  have hdef : e = COMBINED_MARKER ++ (unk ++ ([1, 0, 0, 0] ++ ([0, 0, 0, 128] ++
      (le32bytes T ++ (le32bytes P ++ (padb ++ (dat ++ (encRep n1 ++ encRep n2)))))))) := by
    rw [he, encSentinel]
  have hlen : e.length = 103 + P + T + n1.length + n2.length := by
    rw [hdef]
    simp [encRep, le32bytes]
    omega
  have hd50 : e.drop 50 = unk ++ ([1, 0, 0, 0] ++ ([0, 0, 0, 128] ++
      (le32bytes T ++ (le32bytes P ++ (padb ++ (dat ++ (encRep n1 ++ encRep n2))))))) := by
    rw [hdef, List.drop_left' hCM]
  have hd71 : e.drop 71 = [1, 0, 0, 0] ++ ([0, 0, 0, 128] ++
      (le32bytes T ++ (le32bytes P ++ (padb ++ (dat ++ (encRep n1 ++ encRep n2)))))) := by
    rw [show (71 : Nat) = 50 + 21 by norm_num, ← List.drop_drop, hd50, List.drop_left' hu]
  have hd75 : e.drop 75 = [0, 0, 0, 128] ++
      (le32bytes T ++ (le32bytes P ++ (padb ++ (dat ++ (encRep n1 ++ encRep n2))))) := by
    rw [show (75 : Nat) = 71 + 4 by norm_num, ← List.drop_drop, hd71,
        List.drop_left' (by rfl : ([1, 0, 0, 0] : List Nat).length = 4)]
  have hd79 : e.drop 79 =
      le32bytes T ++ (le32bytes P ++ (padb ++ (dat ++ (encRep n1 ++ encRep n2)))) := by
    rw [show (79 : Nat) = 75 + 4 by norm_num, ← List.drop_drop, hd75,
        List.drop_left' (by rfl : ([0, 0, 0, 128] : List Nat).length = 4)]
  have hd83 : e.drop 83 = le32bytes P ++ (padb ++ (dat ++ (encRep n1 ++ encRep n2))) := by
    rw [show (83 : Nat) = 79 + 4 by norm_num, ← List.drop_drop, hd79,
        List.drop_left' (le32bytes_length T)]
  have hd87 : e.drop 87 = padb ++ (dat ++ (encRep n1 ++ encRep n2)) := by
    rw [show (87 : Nat) = 83 + 4 by norm_num, ← List.drop_drop, hd83,
        List.drop_left' (le32bytes_length P)]
  have hd87P : e.drop (87 + P) = dat ++ (encRep n1 ++ encRep n2) := by
    rw [← List.drop_drop, hd87, List.drop_left' hp]
  have s0 : getSlice e 0 50 = COMBINED_MARKER :=
    getSlice_drop _ _ _ _ _ (by rw [List.drop_zero, hdef]) hCM
  have s71 : getSlice e 71 4 = [1, 0, 0, 0] := getSlice_drop _ _ _ _ _ hd71 rfl
  have s75 : getSlice e 75 4 = [0, 0, 0, 128] := getSlice_drop _ _ _ _ _ hd75 rfl
  have s79 : getSlice e 79 4 = le32bytes T := getSlice_drop _ _ _ _ _ hd79 (le32bytes_length T)
  have s83 : getSlice e 83 4 = le32bytes P := getSlice_drop _ _ _ _ _ hd83 (le32bytes_length P)
  have sdat : getSlice e (87 + P) T = dat := getSlice_drop _ _ _ _ _ hd87P hd
  have hsplit1 : e = (COMBINED_MARKER ++ (unk ++ ([1, 0, 0, 0] ++ ([0, 0, 0, 128] ++
      (le32bytes T ++ (le32bytes P ++ (padb ++ dat))))))) ++ (encRep n1 ++ encRep n2) := by
    rw [hdef]
    simp [List.append_assoc]
  have r1 : parse_repeated_string e (87 + P + T) = some (n1, 87 + P + T + 8 + n1.length) := by
    rw [hsplit1]
    exact parse_rep_encRep _ n1 (encRep n2) (87 + P + T)
      (by simp [le32bytes]; omega) h1
  have hsplit2 : e = ((COMBINED_MARKER ++ (unk ++ ([1, 0, 0, 0] ++ ([0, 0, 0, 128] ++
      (le32bytes T ++ (le32bytes P ++ (padb ++ dat))))))) ++ encRep n1) ++
      (encRep n2 ++ []) := by
    rw [hdef]
    simp [List.append_assoc]
  have r2 : parse_repeated_string e (87 + P + T + 8 + n1.length) =
      some (n2, 87 + P + T + 8 + n1.length + 8 + n2.length) := by
    rw [hsplit2]
    exact parse_rep_encRep _ n2 [] (87 + P + T + 8 + n1.length)
      (by simp [encRep, le32bytes]; omega) h2
  rw [parse_file_block, hCM]
  norm_num
  rw [s0, s71, s75, s79, s83, le32_le32bytes _ hT, le32_le32bytes _ hP]
  refine ⟨by omega, rfl, by omega, by omega, rfl, by omega, ?_⟩
  rw [if_pos rfl, if_neg (by omega), finishBlock, if_neg (by omega), if_neg (by omega), r1]
  simp only [Option.some_bind]
  rw [r2]
  simp only [Option.some_bind]
  rw [sdat]
  simp only [Option.some.injEq, Prod.mk.injEq]
  exact ⟨trivial, by omega⟩

/-- `parse_file_block` succeeds on a direct-length block encoding with a
non-sentinel length `L`, returns exactly the `L` data bytes with
`pad_len = 0`, and consumes the whole encoding. -/
lemma parse_encDirect (unk dat n1 n2 : List Nat) (L : Nat)
    (hu : unk.length = 21) (hd : dat.length = L)
    (hL : L < 4294967296) (hLs : L ≠ 2147483648)
    (h1 : n1.length < 4294967296) (h2 : n2.length < 4294967296) :
    parse_file_block (encDirect unk L dat n1 n2) 0 =
      some ({ file_len := L, pad_len := 0, file_data := dat,
              repeated_name := n1, repeated_utf8 := n2 },
            (encDirect unk L dat n1 n2).length) := by
  set e := encDirect unk L dat n1 n2 with he
  have hCM : COMBINED_MARKER.length = 50 := rfl
  have hdef : e = COMBINED_MARKER ++ (unk ++ ([1, 0, 0, 0] ++
      (le32bytes L ++ (dat ++ (encRep n1 ++ encRep n2))))) := by
    rw [he, encDirect]
  have hlen : e.length = 95 + L + n1.length + n2.length := by
    rw [hdef]
    simp [encRep, le32bytes]
    omega
  have hd50 : e.drop 50 = unk ++ ([1, 0, 0, 0] ++
      (le32bytes L ++ (dat ++ (encRep n1 ++ encRep n2)))) := by
    rw [hdef, List.drop_left' hCM]
  have hd71 : e.drop 71 = [1, 0, 0, 0] ++
      (le32bytes L ++ (dat ++ (encRep n1 ++ encRep n2))) := by
    rw [show (71 : Nat) = 50 + 21 by norm_num, ← List.drop_drop, hd50, List.drop_left' hu]
  have hd75 : e.drop 75 = le32bytes L ++ (dat ++ (encRep n1 ++ encRep n2)) := by
    rw [show (75 : Nat) = 71 + 4 by norm_num, ← List.drop_drop, hd71,
        List.drop_left' (by rfl : ([1, 0, 0, 0] : List Nat).length = 4)]
  have hd79 : e.drop 79 = dat ++ (encRep n1 ++ encRep n2) := by
    rw [show (79 : Nat) = 75 + 4 by norm_num, ← List.drop_drop, hd75,
        List.drop_left' (le32bytes_length L)]
  have s0 : getSlice e 0 50 = COMBINED_MARKER :=
    getSlice_drop _ _ _ _ _ (by rw [List.drop_zero, hdef]) hCM
  have s71 : getSlice e 71 4 = [1, 0, 0, 0] := getSlice_drop _ _ _ _ _ hd71 rfl
  have s75 : getSlice e 75 4 = le32bytes L := getSlice_drop _ _ _ _ _ hd75 (le32bytes_length L)
  have sdat : getSlice e 79 L = dat := getSlice_drop _ _ _ _ _ hd79 hd
  have hsplit1 : e = (COMBINED_MARKER ++ (unk ++ ([1, 0, 0, 0] ++
      (le32bytes L ++ dat)))) ++ (encRep n1 ++ encRep n2) := by
    rw [hdef]
    simp [List.append_assoc]
  have r1 : parse_repeated_string e (79 + L) = some (n1, 79 + L + 8 + n1.length) := by
    rw [hsplit1]
    exact parse_rep_encRep _ n1 (encRep n2) (79 + L) (by simp [le32bytes]; omega) h1
  have hsplit2 : e = ((COMBINED_MARKER ++ (unk ++ ([1, 0, 0, 0] ++
      (le32bytes L ++ dat)))) ++ encRep n1) ++ (encRep n2 ++ []) := by
    rw [hdef]
    simp [List.append_assoc]
  have r2 : parse_repeated_string e (79 + L + 8 + n1.length) =
      some (n2, 79 + L + 8 + n1.length + 8 + n2.length) := by
    rw [hsplit2]
    exact parse_rep_encRep _ n2 [] (79 + L + 8 + n1.length)
      (by simp [encRep, le32bytes]; omega) h2
  rw [parse_file_block, hCM]
  norm_num
  rw [s0, s71, s75, le32_le32bytes _ hL]
  refine ⟨by omega, rfl, by omega, by omega, rfl, by omega, ?_⟩
  rw [if_neg (le32bytes_ne_sentinel L hL hLs), finishBlock]
  norm_num
  refine ⟨by omega, by omega, ?_⟩
  rw [r1]
  simp only [Option.some_bind]
  rw [r2]
  simp only [Option.some_bind]
  rw [sdat]
  simp only [Option.some.injEq, Prod.mk.injEq]
  exact ⟨trivial, by omega⟩

/-- Bounds extracted from a successful repeated-string parse: the cursor
advances at least 8 bytes and never leaves the buffer. -/
lemma parse_rep_inv (data : List Nat) (off : Nat) (r : List Nat) (off2 : Nat)
    (h : parse_repeated_string data off = some (r, off2)) :
    off + 8 ≤ off2 ∧ off2 ≤ data.length := by
  rw [parse_repeated_string] at h
  split_ifs at h with h1 h2 h3 h4
  simp only [Option.some.injEq, Prod.mk.injEq] at h
  omega

/-- Everything a successful `finishBlock` guarantees: the block fields are
the arguments, the file data has exactly the declared length, and the
cursor lands past both repeated strings, inside the buffer. -/
lemma finishBlock_inv (data : List Nat) (off0 fl pl : Nat) (b : Block) (off : Nat)
    (h : finishBlock data off0 fl pl = some (b, off)) :
    b.file_len = fl ∧ b.pad_len = pl ∧ b.file_data.length = fl ∧
      off0 + pl + fl + 16 ≤ off ∧ off ≤ data.length := by
  rw [finishBlock] at h
  split_ifs at h with h1 h2
  cases hp1 : parse_repeated_string data (off0 + pl + fl) with
  | none => rw [hp1] at h; simp at h
  | some p1 =>
    rw [hp1] at h
    simp only [Option.some_bind] at h
    cases hp2 : parse_repeated_string data p1.2 with
    | none => rw [hp2] at h; simp at h
    | some p2 =>
      rw [hp2] at h
      simp only [Option.some_bind, Option.some.injEq, Prod.mk.injEq] at h
      obtain ⟨hb, hoff⟩ := h
      have i1 := parse_rep_inv data (off0 + pl + fl) p1.1 p1.2 (by rw [hp1])
      have i2 := parse_rep_inv data p1.2 p2.1 p2.2 (by rw [hp2])
      have hfd : (getSlice data (off0 + pl) fl).length = fl :=
        length_getSlice data (off0 + pl) fl (by omega)
      subst hb
      refine ⟨rfl, rfl, hfd, by omega, by omega⟩

/-- Everything a successful `parse_file_block` guarantees: the cursor
advances at least 95 bytes past the block start (the minimal block size),
stays inside the buffer, the file data has exactly the declared length,
and `pad_len` is 0 unless the 4 bytes after the `01 00 00 00` marker were
the sentinel `00 00 00 80`. -/
lemma parse_block_inv (data : List Nat) (s : Nat) (b : Block) (off : Nat)
    (h : parse_file_block data s = some (b, off)) :
    s + 95 ≤ off ∧ off ≤ data.length ∧ b.file_data.length = b.file_len ∧
      (getSlice data (s + COMBINED_MARKER.length + 25) 4 ≠ [0, 0, 0, 128] →
        b.pad_len = 0) := by
  have hCM : COMBINED_MARKER.length = 50 := rfl
  rw [parse_file_block] at h
  split_ifs at h with h1 h2 h3 h4 h5 h6 h7 h8
  · have i := finishBlock_inv _ _ _ _ _ _ h
    refine ⟨by omega, by omega, by rw [i.2.2.1, i.1], fun hne => absurd h7 hne⟩
  · have i := finishBlock_inv _ _ _ _ _ _ h
    refine ⟨by omega, by omega, by rw [i.2.2.1, i.1], fun _ => i.2.1⟩

/-- A slice fully inside `data` is unchanged by appending a suffix. -/
lemma getSlice_append_left (data tail : List Nat) (off n : Nat)
    (h : off + n ≤ data.length) :
    getSlice (data ++ tail) off n = getSlice data off n := by
  rw [getSlice, getSlice, List.drop_append_eq_append_drop,
      List.take_append_of_le_length (by simp; omega)]

/-- A successful repeated-string parse is unaffected by appending bytes
after the buffer. -/
lemma parse_rep_ext (data tail : List Nat) (off : Nat) (p : List Nat × Nat)
    (h : parse_repeated_string data off = some p) :
    parse_repeated_string (data ++ tail) off = some p := by
  rw [parse_repeated_string] at h
  split_ifs at h with h1 h2 h3 h4
  rw [parse_repeated_string, getSlice_append_left data tail off 4 (by omega),
      getSlice_append_left data tail (off + 4) 4 (by omega)]
  rw [if_neg (by simp; omega), if_neg h2, if_neg (by simp; omega),
      if_neg (by simp; omega), getSlice_append_left data tail (off + 8) _ (by omega)]
  exact h

/-- A successful `finishBlock` is unaffected by appending bytes after the
buffer. -/
lemma finishBlock_ext (data tail : List Nat) (off0 fl pl : Nat) (p : Block × Nat)
    (h : finishBlock data off0 fl pl = some p) :
    finishBlock (data ++ tail) off0 fl pl = some p := by
  rw [finishBlock] at h
  split_ifs at h with h1 h2
  cases hp1 : parse_repeated_string data (off0 + pl + fl) with
  | none => rw [hp1] at h; simp at h
  | some p1 =>
    rw [hp1] at h
    simp only [Option.some_bind] at h
    cases hp2 : parse_repeated_string data p1.2 with
    | none => rw [hp2] at h; simp at h
    | some p2 =>
      rw [hp2] at h
      simp only [Option.some_bind] at h
      rw [finishBlock, if_neg (by simp; omega), if_neg (by simp; omega),
          parse_rep_ext data tail _ p1 hp1]
      simp only [Option.some_bind]
      rw [parse_rep_ext data tail _ p2 hp2]
      simp only [Option.some_bind]
      rw [getSlice_append_left data tail (off0 + pl) fl (by omega)]
      exact h

/-- A successful block parse is unaffected by appending bytes after the
buffer. -/
lemma parse_block_ext (data tail : List Nat) (s : Nat) (p : Block × Nat)
    (h : parse_file_block data s = some p) :
    parse_file_block (data ++ tail) s = some p := by
  have hCM : COMBINED_MARKER.length = 50 := rfl
  rw [parse_file_block] at h
  split_ifs at h with h1 h2 h3 h4 h5 h6 h7 h8
  · rw [parse_file_block,
        getSlice_append_left data tail s COMBINED_MARKER.length (by omega),
        getSlice_append_left data tail (s + COMBINED_MARKER.length + 21) 4 (by omega),
        getSlice_append_left data tail (s + COMBINED_MARKER.length + 25) 4 (by omega),
        getSlice_append_left data tail (s + COMBINED_MARKER.length + 29) 4 (by omega),
        getSlice_append_left data tail (s + COMBINED_MARKER.length + 33) 4 (by omega)]
    rw [if_neg (by simp; omega), if_neg h2, if_neg (by simp; omega),
        if_neg (by simp; omega), if_neg h5, if_neg (by simp; omega),
        if_pos h7, if_neg (by simp; omega)]
    exact finishBlock_ext data tail _ _ _ _ h
  · rw [parse_file_block,
        getSlice_append_left data tail s COMBINED_MARKER.length (by omega),
        getSlice_append_left data tail (s + COMBINED_MARKER.length + 21) 4 (by omega),
        getSlice_append_left data tail (s + COMBINED_MARKER.length + 25) 4 (by omega)]
    rw [if_neg (by simp; omega), if_neg h2, if_neg (by simp; omega),
        if_neg (by simp; omega), if_neg h5, if_neg (by simp; omega),
        if_neg h7]
    exact finishBlock_ext data tail _ _ _ _ h

/-- A found marker position is at or after the start of the search and the
match lies entirely inside the buffer. -/
lemma findFromAux_some (data sub : List Nat) :
    ∀ (fuel i pos : Nat), findFromAux data sub fuel i = some pos →
      i ≤ pos ∧ pos + sub.length ≤ data.length
  | 0, i, pos, h => by simp [findFromAux] at h
  | fuel + 1, i, pos, h => by
    rw [findFromAux] at h
    split_ifs at h with h1 h2
    · simp only [Option.some.injEq] at h
      omega
    · have := findFromAux_some data sub fuel (i + 1) pos h
      omega

lemma findFrom_some (data sub : List Nat) (start pos : Nat)
    (h : findFrom data sub start = some pos) :
    start ≤ pos ∧ pos + sub.length ≤ data.length :=
  findFromAux_some data sub _ start pos h

lemma findFrom_none_of_past (data sub : List Nat) (start : Nat)
    (h : data.length < start) : findFrom data sub start = none := by
  rw [findFrom, show data.length + 1 - start = 0 by omega]
  rfl

/-- The scan loop computes the same result under any sufficiently large
fuel: the loop of `parse_all_file_blocks` terminates, because every
successfully parsed block advances the cursor strictly (by at least 95
bytes past the matched marker position) while staying inside the buffer. -/
lemma parseLoop_fuel_eq (data : List Nat) :
    ∀ (f1 f2 off : Nat) (acc : List Block),
      data.length < f1 + off → data.length < f2 + off →
      parseLoop data f1 off acc = parseLoop data f2 off acc := by
  intro f1
  induction f1 with
  | zero =>
    intro f2 off acc hf1 hf2
    cases f2 with
    | zero => rfl
    | succ g =>
      rw [parseLoop, parseLoop, findFrom_none_of_past data COMBINED_MARKER off (by omega)]
  | succ k ih =>
    intro f2 off acc hf1 hf2
    cases f2 with
    | zero =>
      rw [parseLoop, parseLoop, findFrom_none_of_past data COMBINED_MARKER off (by omega)]
    | succ g =>
      rw [parseLoop, parseLoop]
      cases hfind : findFrom data COMBINED_MARKER off with
      | none => rfl
      | some pos =>
        cases hparse : parse_file_block data pos with
        | none => simp only [hparse]
        | some p =>
          obtain ⟨blk, noff⟩ := p
          simp only [hparse]
          have hbound := findFrom_some data COMBINED_MARKER off pos hfind
          have hadv := parse_block_inv data pos blk noff hparse
          exact ih g noff (acc ++ [blk]) (by omega) (by omega)

/-- When the next marker is found but the block parse at it fails, one
loop step stops and returns the accumulated blocks with the cursor
untouched. -/
lemma parseLoop_stop_on_fail (data : List Nat) (fuel off : Nat) (acc : List Block)
    (pos : Nat) (hfind : findFrom data COMBINED_MARKER off = some pos)
    (hfail : parse_file_block data pos = none) :
    parseLoop data (fuel + 1) off acc = (acc, off) := by
  rw [parseLoop, hfind]
  simp only [hfail]

/-- Every block the scan loop returns either was in the accumulator or
comes out of a successful `parse_file_block` at some position. -/
lemma parseLoop_mem (data : List Nat) :
    ∀ (fuel off : Nat) (acc : List Block) (b : Block),
      b ∈ (parseLoop data fuel off acc).1 →
      b ∈ acc ∨ ∃ s off2, parse_file_block data s = some (b, off2) := by
  intro fuel
  induction fuel with
  | zero => intro off acc b hb; exact Or.inl hb
  | succ k ih =>
    intro off acc b hb
    rw [parseLoop] at hb
    cases hfind : findFrom data COMBINED_MARKER off with
    | none => rw [hfind] at hb; exact Or.inl hb
    | some pos =>
      rw [hfind] at hb
      cases hparse : parse_file_block data pos with
      | none =>
        simp only [hparse] at hb
        exact Or.inl hb
      | some p =>
        obtain ⟨blk, noff⟩ := p
        simp only [hparse] at hb
        rcases ih noff (acc ++ [blk]) b hb with hacc | hfound
        · rcases List.mem_append.mp hacc with h | h
          · exact Or.inl h
          · refine Or.inr ⟨pos, noff, ?_⟩
            rw [hparse]
            simp only [List.mem_singleton] at h
            rw [h]
        · exact Or.inr hfound

/-- Every block returned by `parse_all_file_blocks` comes out of a
successful `parse_file_block` at some position of the handle's data. -/
lemma parse_all_mem (h : RtfdGunsForHands) (b : Block)
    (hb : b ∈ (parse_all_file_blocks h).1) :
    ∃ s off2, parse_file_block h.data s = some (b, off2) := by
  rw [parse_all_file_blocks] at hb
  split_ifs at hb with hguard
  · simp at hb
  · have hdata : (skip_rtfd_magic h).data = h.data := by
      rw [skip_rtfd_magic]
      split_ifs <;> rfl
    rcases parseLoop_mem (skip_rtfd_magic h).data _ _ _ b hb with habs | hfound
    · simp at habs
    · rw [hdata] at hfound
      exact hfound

/-- If a block parse consumes a buffer exactly, the parse of any strict
prefix of that buffer fails: a truncated field is always caught by the
bounds check guarding its read, never read short. -/
lemma parse_take_none (data : List Nat) (k : Nat) (b : Block)
    (hfull : parse_file_block data 0 = some (b, data.length))
    (hk : k < data.length) :
    parse_file_block (data.take k) 0 = none := by
  cases hx : parse_file_block (data.take k) 0 with
  | none => rfl
  | some p =>
    obtain ⟨b2, off2⟩ := p
    have hbnd := parse_block_inv _ _ _ _ hx
    have hext := parse_block_ext (data.take k) (data.drop k) 0 (b2, off2) hx
    rw [List.take_append_drop, hfull] at hext
    simp only [Option.some.injEq, Prod.mk.injEq] at hext
    have hlen : (data.take k).length = k := by
      rw [List.length_take]
      omega
    obtain ⟨-, hoff⟩ := hext
    omega

/-
Model of the filename choice in cli.py (`main`):
    fname = block["repeated_utf8"] or block["repeated_name"] or f"file_{i}.bin"
Python `or` on strings picks the first non-empty one; with strings
modelled as raw bytes, non-emptiness of the decoded text coincides with
non-emptiness of the raw bytes.
-/

/-- The fallback filename the CLI builds from the 1-based block index:
`file_` then the decimal digits of `i` then `.bin`. -/
def fallbackName (i : Nat) : List Nat :=
  [102, 105, 108, 101, 95] ++ (Nat.toDigits 10 i).map Char.toNat ++ [46, 98, 105, 110]

/-- cli.py line 43: resolved display name of the `i`-th decoded block. -/
def chooseFilename (i : Nat) (b : Block) : List Nat :=
  if b.repeated_utf8 ≠ [] then b.repeated_utf8
  else if b.repeated_name ≠ [] then b.repeated_name
  else fallbackName i

/-
Spec-modelled directory finalization (spec sections 3 and 4.3, steps 5-9).
The structural DirectoryDecoder the spec describes has no implementation
under src/ (the repository ships only the flat marker scanner above), so
its record finalization is modelled from the spec's words here.
-/

mutual
/-- Modelled from the spec: the decoded tree (missing from src/).  A node
is either a plain file node (name, content bytes) or a directory node
(name, ordered children keyed by text). -/
inductive RNode where
  | fileNode : List Nat → List Nat → RNode
  | dirNode : List Nat → List (List Nat × RVal) → RNode

/-- Modelled from the spec: a directory child's content — a byte string
(record type 1) or a nested node (record type 3). -/
inductive RVal where
  | str : List Nat → RVal
  | node : RNode → RVal
end

/-- The ASCII preferred-name metadata key (`__@PreferredName@__`). -/
def asciiNameKey : List Nat :=
  [95, 95, 64, 80, 114, 101, 102, 101, 114, 114, 101, 100, 78, 97, 109, 101, 64, 95, 95]

/-- The UTF-8 preferred-name metadata key (`__@UTF8PreferredName@__`). -/
def utf8NameKey : List Nat :=
  [95, 95, 64, 85, 84, 70, 56, 80, 114, 101, 102, 101, 114, 114, 101, 100, 78, 97, 109, 101, 64, 95, 95]

/-- The placeholder key `.` (always discarded). -/
def dotKey : List Nat := [46]

/-- The single-attachment wrapper key `..`. -/
def dotdotKey : List Nat := [46, 46]

/-- Modelled from the spec: step 5 of DirectoryDecoder — pair keys with
values into an insertion-ordered mapping where a later duplicate key
overwrites the earlier value in place. -/
def upsertKV (m : List (List Nat × RVal)) (k : List Nat) (v : RVal) :
    List (List Nat × RVal) :=
  if m.any (fun p => p.1 == k) then m.map (fun p => if p.1 == k then (k, v) else p)
  else m ++ [(k, v)]

/-- Modelled from the spec: build the key→value mapping from the decoded
(key, value) pairs in decode order. -/
def buildMapping (pairs : List (List Nat × RVal)) : List (List Nat × RVal) :=
  pairs.foldl (fun m p => upsertKV m p.1 p.2) []

/-- Modelled from the spec: the decoded text stored under a metadata key
(empty when the key is absent or not a string). -/
def lookupStr (kvs : List (List Nat × RVal)) (k : List Nat) : List Nat :=
  match kvs.find? (fun p => p.1 == k) with
  | some (_, RVal.str s) => s
  | _ => []

/-- Modelled from the spec: step 7 — the resolved name is the UTF-8
preferred name if non-empty, else the ASCII preferred name, else empty. -/
def resolvedName (kvs : List (List Nat × RVal)) : List Nat :=
  if lookupStr kvs utf8NameKey ≠ [] then lookupStr kvs utf8NameKey
  else lookupStr kvs asciiNameKey

/-- Modelled from the spec: step 6 — remove the two preferred-name keys
and the `.` placeholder before children are built. -/
def removeMetaKeys (kvs : List (List Nat × RVal)) : List (List Nat × RVal) :=
  kvs.filter (fun p => !(p.1 == asciiNameKey || p.1 == utf8NameKey || p.1 == dotKey))

/-- Modelled from the spec: steps 6-9 — after removing metadata keys, a
single remaining `..` entry with byte content collapses the directory to a
plain file node; otherwise a directory node with the remaining children in
decode order. -/
def finalizeDirectory (kvs : List (List Nat × RVal)) : RNode :=
  match removeMetaKeys kvs with
  | [(k, RVal.str bs)] =>
    if k = dotdotKey then RNode.fileNode (resolvedName kvs) bs
    else RNode.dirNode (resolvedName kvs) [(k, RVal.str bs)]
  | rest => RNode.dirNode (resolvedName kvs) rest

/-- A minimal valid block encoding (95 bytes): combined marker, 21 zero
bytes, the `01 00 00 00` marker, direct length 0, and two empty repeated
strings. -/
def block95 : List Nat :=
  COMBINED_MARKER ++ List.replicate 21 0 ++ [1, 0, 0, 0] ++ [0, 0, 0, 0] ++
  [1, 0, 0, 0, 0, 0, 0, 0] ++ [1, 0, 0, 0, 0, 0, 0, 0]

/-- The block `parse_file_block` recovers from `block95`. -/
def theBlock0 : Block :=
  { file_len := 0, pad_len := 0, file_data := [], repeated_name := [],
    repeated_utf8 := [] }

/-- `b"rtfd"`, one complete block, then a bare combined marker with
nothing after it: the second block parse fails by truncation. -/
def input1 : List Nat := rtfdMagic ++ block95 ++ COMBINED_MARKER

/-- A concrete 108-byte sentinel-form block encoding: true length 3,
padding length 2. -/
def encS108 : List Nat :=
  encSentinel (List.replicate 21 0) 3 2 [9, 9] [1, 2, 3] [] []

/-- `b"rtfd"` followed by `encS108` truncated at byte 90 — strictly inside
the 3-byte file-data body (which occupies bytes 89-91 of the block). -/
def truncInput : List Nat := rtfdMagic ++ encS108.take 90

/-- The exact header the spec calls valid: magic `rtfd`, reserved = 0,
root type = 3. -/
def validHeader : List Nat := rtfdMagic ++ [0, 0, 0, 0] ++ [3, 0, 0, 0]

/-- A header with a nonzero reserved field. -/
def badReserved : List Nat := rtfdMagic ++ [1, 0, 0, 0] ++ [3, 0, 0, 0]

/-- Decoded pairs of a single-attachment wrapper directory: an ASCII
preferred name `img` and one `..` entry holding bytes. -/
def exPairs : List (List Nat × RVal) :=
  [(asciiNameKey, RVal.str [105, 109, 103]), (dotdotKey, RVal.str [7, 8, 9])]

/-
Claim theorems.  Each claim of CLAIMS.json gets exactly one theorem below
(plus a witness when the theorem has hypotheses, and a counterexample when
the claim as stated fails on the code).
-/

/-- Claim C1, counterexample: on `input1` an inner parse step fails (the
marker at position 99 is found but the block parse at it fails by
truncation), yet the decode does not abort — it returns the already-decoded
first block as a partial result. -/
theorem c1_counterexample :
    findFrom input1 COMBINED_MARKER 99 = some 99 ∧
    parse_file_block input1 99 = none ∧
    (parse_all_file_blocks (newHandle input1)).1 = [theBlock0] := by
  decide

/-- Claim C1 (amended): when the scan finds a marker but the block parse at
it fails, the loop of `parse_all_file_blocks` stops and returns the blocks
already decoded, with the cursor untouched and no error signalled — the
decode is not all-or-nothing. -/
theorem c1_partial_result_on_failure (data : List Nat) (fuel off : Nat)
    (acc : List Block) (pos : Nat)
    (hfind : findFrom data COMBINED_MARKER off = some pos)
    (hfail : parse_file_block data pos = none) :
    parseLoop data (fuel + 1) off acc = (acc, off) :=
  parseLoop_stop_on_fail data fuel off acc pos hfind hfail

/-- Witness for C1 at `input1`, position 99, with one block accumulated. -/
theorem c1_witness : parseLoop input1 5 99 [theBlock0] = ([theBlock0], 99) :=
  c1_partial_result_on_failure input1 4 99 [theBlock0] 99 (by decide) (by decide)

/-- Claim C2, counterexample: on the exact buffer the claim calls valid
(`rtfd`, reserved = 0, root type = 3) the cursor advances 4 bytes, not 12;
and a nonzero reserved field is not rejected — the decode returns an
ordinary empty result with no failure. -/
theorem c2_counterexample :
    (skip_rtfd_magic (newHandle validHeader)).offset = 4 ∧
    ¬ (skip_rtfd_magic (newHandle validHeader)).offset = 12 ∧
    parse_all_file_blocks (newHandle badReserved) =
      ([], { data := badReserved, offset := 4 }) := by
  decide

/-- Claim C2 (amended): header handling checks only the 4-byte magic.  A
buffer starting with `rtfd` has exactly 4 bytes skipped; any other buffer
makes `parse_all_file_blocks` return an empty list with the handle
untouched.  The reserved and root-type fields of the spec are never read
and no error cause is ever produced. -/
theorem c2_magic_only (data : List Nat) :
    (data.take 4 = rtfdMagic →
      skip_rtfd_magic (newHandle data) = { data := data, offset := 4 }) ∧
    (data.take 4 ≠ rtfdMagic →
      parse_all_file_blocks (newHandle data) = ([], newHandle data)) := by
  constructor
  · intro h
    rw [skip_rtfd_magic]
    simp [newHandle, h]
  · intro h
    rw [parse_all_file_blocks, if_pos ⟨rfl, h⟩]

/-- Witness for C2: the magic-bearing header advances 4 bytes; a
non-magic buffer yields the empty result. -/
theorem c2_witness :
    skip_rtfd_magic (newHandle validHeader) = { data := validHeader, offset := 4 } ∧
    parse_all_file_blocks (newHandle [9]) = ([], newHandle [9]) :=
  ⟨(c2_magic_only validHeader).1 (by decide), (c2_magic_only [9]).2 (by decide)⟩

/-- Claim C3: decoding a sentinel-form length field (`00 00 00 80`, true
length `T`, padding length `P`, `P` arbitrary pad bytes, `T` data bytes)
yields exactly the `T` data bytes; the pad bytes are skipped and never
interpreted (they are universally quantified), and the whole encoding is
consumed. -/
theorem c3_sentinel_roundtrip (unk padb dat n1 n2 : List Nat) (T P : Nat)
    (hu : unk.length = 21) (hp : padb.length = P) (hd : dat.length = T)
    (hT : T < 4294967296) (hP : P < 4294967296)
    (h1 : n1.length < 4294967296) (h2 : n2.length < 4294967296) :
    parse_file_block (encSentinel unk T P padb dat n1 n2) 0 =
      some ({ file_len := T, pad_len := P, file_data := dat,
              repeated_name := n1, repeated_utf8 := n2 },
            (encSentinel unk T P padb dat n1 n2).length) :=
  parse_encSentinel unk padb dat n1 n2 T P hu hp hd hT hP h1 h2

/-- Witness for C3 at `T = 3`, `P = 2`, pad `[9, 9]`, data `[1, 2, 3]`. -/
theorem c3_witness :
    parse_file_block (encSentinel (List.replicate 21 0) 3 2 [9, 9] [1, 2, 3] [] []) 0 =
      some ({ file_len := 3, pad_len := 2, file_data := [1, 2, 3],
              repeated_name := [], repeated_utf8 := [] },
            (encSentinel (List.replicate 21 0) 3 2 [9, 9] [1, 2, 3] [] []).length) :=
  c3_sentinel_roundtrip (List.replicate 21 0) [9, 9] [1, 2, 3] [] [] 3 2
    (by decide) (by decide) (by decide) (by decide) (by decide) (by decide) (by decide)

/-- Claim C4, counterexample: `truncInput` is truncated strictly inside a
string body, the marker is found and the block parse fails, yet the decode
signals nothing — it returns a plain empty block list (the result type has
no error case at all), indistinguishable from a cleanly empty input. -/
theorem c4_counterexample :
    findFrom truncInput COMBINED_MARKER 4 = some 4 ∧
    parse_file_block truncInput 4 = none ∧
    parse_all_file_blocks (newHandle truncInput) =
      ([], { data := truncInput, offset := 4 }) := by
  decide

/-- Claim C4 (amended): truncating a block encoding at any byte offset
strictly inside it makes `parse_file_block` fail (return `none`) rather
than read short or out of bounds; and every successful block parse returns
file data of exactly the declared length with the final cursor inside the
buffer.  The failure is swallowed by `parse_all_file_blocks` (see C1), not
signalled as an error. -/
theorem c4_truncation_safe :
    (∀ unk padb dat n1 n2 T P k, unk.length = 21 → padb.length = P →
        dat.length = T → T < 4294967296 → P < 4294967296 →
        n1.length < 4294967296 → n2.length < 4294967296 →
        k < (encSentinel unk T P padb dat n1 n2).length →
        parse_file_block ((encSentinel unk T P padb dat n1 n2).take k) 0 = none) ∧
    (∀ data s b off, parse_file_block data s = some (b, off) →
        b.file_data.length = b.file_len ∧ off ≤ data.length) := by
  constructor
  · intro unk padb dat n1 n2 T P k hu hp hd hT hP h1 h2 hk
    exact parse_take_none _ k _
      (parse_encSentinel unk padb dat n1 n2 T P hu hp hd hT hP h1 h2) hk
  · intro data s b off h
    have i := parse_block_inv data s b off h
    exact ⟨i.2.2.1, i.2.1⟩

/-- Witness for C4: the concrete truncation at byte 90 fails, and the
minimal block parse returns exact-length data. -/
theorem c4_witness :
    parse_file_block
      ((encSentinel (List.replicate 21 0) 3 2 [9, 9] [1, 2, 3] [] []).take 90) 0 = none ∧
    (theBlock0.file_data.length = theBlock0.file_len ∧ 95 ≤ block95.length) :=
  ⟨c4_truncation_safe.1 (List.replicate 21 0) [9, 9] [1, 2, 3] [] [] 3 2 90
      (by decide) (by decide) (by decide) (by decide) (by decide) (by decide)
      (by decide) (by decide),
   c4_truncation_safe.2 block95 0 theBlock0 95 (by decide)⟩

/-- Claim C5 (spec-modelled): if after removing the ASCII preferred-name
key, the UTF-8 preferred-name key and the `.` key exactly one entry
remains and its key is `..` with byte content, the decoded directory
record finalizes to a plain file node carrying the resolved preferred name
and that entry's bytes — never to a directory node. -/
theorem c5_single_dotdot_collapse (pairs : List (List Nat × RVal)) (bs : List Nat)
    (h : removeMetaKeys (buildMapping pairs) = [(dotdotKey, RVal.str bs)]) :
    finalizeDirectory (buildMapping pairs) =
      RNode.fileNode (resolvedName (buildMapping pairs)) bs ∧
    ∀ nm ch, finalizeDirectory (buildMapping pairs) ≠ RNode.dirNode nm ch := by
  have hfin : finalizeDirectory (buildMapping pairs) =
      RNode.fileNode (resolvedName (buildMapping pairs)) bs := by
    rw [finalizeDirectory, h]
    simp
  exact ⟨hfin, fun nm ch hcon => by
    rw [hfin] at hcon
    exact RNode.noConfusion hcon⟩

/-- Witness for C5: the spec's own example — ASCII preferred name `img`
plus one `..` entry — collapses to a file node named `img`. -/
theorem c5_witness :
    removeMetaKeys (buildMapping exPairs) = [(dotdotKey, RVal.str [7, 8, 9])] ∧
    finalizeDirectory (buildMapping exPairs) =
      RNode.fileNode (resolvedName (buildMapping exPairs)) [7, 8, 9] ∧
    resolvedName (buildMapping exPairs) = [105, 109, 103] :=
  ⟨rfl, (c5_single_dotdot_collapse exPairs [7, 8, 9] rfl).1, rfl⟩

/-- Claim C6: the direct-length encode/decode round-trip — for every
non-sentinel 32-bit length `L` and payload of length `L`, decoding `L`
followed by the `L` payload bytes returns exactly those bytes, both for
the block file-data field and for the repeated-string codec. -/
theorem c6_direct_roundtrip :
    (∀ unk dat n1 n2 L, unk.length = 21 → dat.length = L →
        L < 4294967296 → L ≠ 2147483648 →
        n1.length < 4294967296 → n2.length < 4294967296 →
        parse_file_block (encDirect unk L dat n1 n2) 0 =
          some ({ file_len := L, pad_len := 0, file_data := dat,
                  repeated_name := n1, repeated_utf8 := n2 },
                (encDirect unk L dat n1 n2).length)) ∧
    (∀ s rest : List Nat, s.length < 4294967296 →
        parse_repeated_string (encRep s ++ rest) 0 = some (s, 8 + s.length)) := by
  constructor
  · intro unk dat n1 n2 L hu hd hL hs h1 h2
    exact parse_encDirect unk dat n1 n2 L hu hd hL hs h1 h2
  · intro s rest hs
    have h := parse_rep_encRep [] s rest 0 rfl hs
    simpa using h

/-- Witness for C6 at `L = 3`, payload `[5, 6, 7]`, and a one-byte
repeated string. -/
theorem c6_witness :
    parse_file_block (encDirect (List.replicate 21 0) 3 [5, 6, 7] [65] [66, 67]) 0 =
      some ({ file_len := 3, pad_len := 0, file_data := [5, 6, 7],
              repeated_name := [65], repeated_utf8 := [66, 67] },
            (encDirect (List.replicate 21 0) 3 [5, 6, 7] [65] [66, 67]).length) ∧
    parse_repeated_string (encRep [1]) 0 = some ([1], 9) :=
  ⟨c6_direct_roundtrip.1 (List.replicate 21 0) [5, 6, 7] [65] [66, 67] 3
      (by decide) (by decide) (by decide) (by decide) (by decide) (by decide),
   by simpa using c6_direct_roundtrip.2 [1] [] (by decide)⟩

/-- Claim C7, counterexample: a decoded entry whose two name fields are
both empty resolves to the fallback `file_1.bin`, not to empty text as the
claim states. -/
theorem c7_counterexample :
    (parse_all_file_blocks (newHandle (rtfdMagic ++ block95))).1 = [theBlock0] ∧
    chooseFilename 1 theBlock0 = [102, 105, 108, 101, 95, 49, 46, 98, 105, 110] ∧
    chooseFilename 1 theBlock0 ≠ [] := by
  decide

/-- Claim C7 (amended): for every decoded entry the resolved display name
is the UTF-8 repeated name when non-empty, else the ASCII repeated name
when non-empty, else the fallback `file_<i>.bin` built from the 1-based
block index — never empty text. -/
theorem c7_name_resolution (unk dat n1 n2 : List Nat) (L i : Nat)
    (hu : unk.length = 21) (hd : dat.length = L) (hL : L < 4294967296)
    (hs : L ≠ 2147483648) (h1 : n1.length < 4294967296)
    (h2 : n2.length < 4294967296) :
    ∃ off, parse_file_block (encDirect unk L dat n1 n2) 0 =
        some (Block.mk L 0 dat n1 n2, off) ∧
      chooseFilename i (Block.mk L 0 dat n1 n2) =
        (if n2 ≠ [] then n2 else if n1 ≠ [] then n1 else fallbackName i) :=
  ⟨_, parse_encDirect unk dat n1 n2 L hu hd hL hs h1 h2, rfl⟩

/-- Witness for C7: a block with both name fields empty resolves to the
fallback name. -/
theorem c7_witness :
    ∃ off, parse_file_block (encDirect (List.replicate 21 0) 0 [] [] []) 0 =
        some (Block.mk 0 0 [] [] [], off) ∧
      chooseFilename 1 (Block.mk 0 0 [] [] []) = fallbackName 1 := by
  have h := c7_name_resolution (List.replicate 21 0) [] [] [] 0 1
    (by decide) rfl (by decide) (by decide) (by decide) (by decide)
  simpa using h

/-- Claim C8: decoding is a deterministic function of the input bytes and
cursor alone — two independent handles in the same state produce identical
ordered results. -/
theorem c8_deterministic (h1 h2 : RtfdGunsForHands)
    (hdata : h1.data = h2.data) (hoff : h1.offset = h2.offset) :
    parse_all_file_blocks h1 = parse_all_file_blocks h2 := by
  obtain ⟨d1, o1⟩ := h1
  obtain ⟨d2, o2⟩ := h2
  cases hdata
  cases hoff
  rfl

/-- Witness for C8: two independently constructed fresh handles over the
same bytes. -/
theorem c8_witness :
    parse_all_file_blocks (newHandle (rtfdMagic ++ block95)) =
      parse_all_file_blocks { data := rtfdMagic ++ block95, offset := 0 } :=
  c8_deterministic _ _ rfl rfl

/-- Claim C9: every block returned by `parse_all_file_blocks` carries file
data of exactly its declared `file_len`; and a block whose 4 bytes after
the `01 00 00 00` marker were not the sentinel `00 00 00 80` has
`pad_len = 0`. -/
theorem c9_block_invariants :
    (∀ (h : RtfdGunsForHands) (b : Block), b ∈ (parse_all_file_blocks h).1 →
        b.file_data.length = b.file_len) ∧
    (∀ (data : List Nat) (s : Nat) (b : Block) (off : Nat),
        parse_file_block data s = some (b, off) →
        getSlice data (s + COMBINED_MARKER.length + 25) 4 ≠ [0, 0, 0, 128] →
        b.pad_len = 0) := by
  constructor
  · intro h b hb
    obtain ⟨s, off2, hs⟩ := parse_all_mem h b hb
    exact (parse_block_inv _ _ _ _ hs).2.2.1
  · intro data s b off h hne
    exact (parse_block_inv data s b off h).2.2.2 hne

/-- Witness for C9 on the minimal block. -/
theorem c9_witness :
    theBlock0.file_data.length = theBlock0.file_len ∧ theBlock0.pad_len = 0 :=
  ⟨c9_block_invariants.1 (newHandle (rtfdMagic ++ block95)) theBlock0 (by decide),
   c9_block_invariants.2 block95 0 theBlock0 95 (by decide) (by decide)⟩

/-- Claim C10: the scan of `parse_all_file_blocks` terminates on every
finite input — every successful block parse moves the cursor at least 95
bytes past the matched marker position while staying inside the buffer, so
the loop's result is independent of any sufficiently large fuel. -/
theorem c10_termination :
    (∀ (data : List Nat) (s : Nat) (b : Block) (off : Nat),
        parse_file_block data s = some (b, off) →
        s + 95 ≤ off ∧ off ≤ data.length) ∧
    (∀ (data : List Nat) (f1 f2 off : Nat) (acc : List Block),
        data.length < f1 + off → data.length < f2 + off →
        parseLoop data f1 off acc = parseLoop data f2 off acc) := by
  constructor
  · intro data s b off h
    have i := parse_block_inv data s b off h
    exact ⟨i.1, i.2.1⟩
  · exact fun data => parseLoop_fuel_eq data

/-- Witness for C10: concrete advancement and fuel-independence. -/
theorem c10_witness :
    (0 + 95 ≤ 95 ∧ 95 ≤ block95.length) ∧
    parseLoop (rtfdMagic ++ block95) 150 4 [] =
      parseLoop (rtfdMagic ++ block95) 200 4 [] :=
  ⟨c10_termination.1 block95 0 theBlock0 95 (by decide),
   c10_termination.2 (rtfdMagic ++ block95) 150 200 4 [] (by decide) (by decide)⟩
